import Mathlib

/-!
Shallow embedding of the board-game referee in `ps3/utils.py` (6x6 "B"/"W"
pawn game).  Boards are Python lists of lists of one-character strings; here
a cell is a `Tile` (`B` = `"B"`, `W` = `"W"`, `E` = `"_"`), and a board is a
`List (List Tile)`.  Python list indexing (including negative indices and
`IndexError`) is modelled by `pyGet`/`pySet` returning `Option`; any Python
exception is modelled as `none` propagating outward.
-/

namespace PS3

/-- Cell values: `B` = `"B"` (black pawn), `W` = `"W"` (white pawn),
`E` = `"_"` (empty). -/
inductive Tile : Type
  | B : Tile
  | W : Tile
  | E : Tile
deriving DecidableEq, Repr

abbrev Board : Type := List (List Tile)

abbrev Move : Type := (Int × Int) × (Int × Int)

/-- `ROW, COL = 6, 6` in the source. -/
def ROW : Int := 6

def COL : Int := 6

/-- `MOVE_NONE = (-1, -1), (-1, -1)` in the source. -/
def MOVE_NONE : Move := ((-1, -1), (-1, -1))

/-- Python list read `l[i]`: a nonnegative index reads from the front, a
negative index `i` with `-len ≤ i` reads `l[len + i]`, anything else raises
`IndexError` (modelled as `none`). -/
def pyGet {α : Type} (l : List α) (i : Int) : Option α :=
  if 0 ≤ i then l[i.toNat]?
  else if 0 ≤ i + l.length then l[(i + (l.length : Int)).toNat]?
  else none

/-- Python list write `l[i] = a`, with the same index normalisation and
`IndexError` behaviour as `pyGet`. -/
def pySet {α : Type} (l : List α) (i : Int) (a : α) : Option (List α) :=
  if 0 ≤ i ∧ i < l.length then some (l.set i.toNat a)
  else if i < 0 ∧ 0 ≤ i + l.length then some (l.set (i + (l.length : Int)).toNat a)
  else none

/-- Python `board[r][c]`. -/
def getCell (b : Board) (r c : Int) : Option Tile :=
  (pyGet b r).bind (fun row => pyGet row c)

/-- Python `board[r][c] = t` (read the row, write the cell, write the row
back; the row write-back is the identity update in the list model). -/
def setCell (b : Board) (r c : Int) (t : Tile) : Option Board :=
  (pyGet b r).bind (fun row => (pySet row c t).bind (fun row2 => pySet b r row2))

/-- The data-model invariant: a fully populated 6x6 grid. -/
def WF (b : Board) : Prop :=
  b.length = 6 ∧ ∀ row ∈ b, row.length = 6

instance : DecidablePred WF := fun b => by
  unfold WF; infer_instance

/-- `generate_init_state()`: rows 0-1 all black, rows 2-3 empty,
rows 4-5 all white. -/
def generate_init_state : Board :=
  [ [Tile.B, Tile.B, Tile.B, Tile.B, Tile.B, Tile.B],
    [Tile.B, Tile.B, Tile.B, Tile.B, Tile.B, Tile.B],
    [Tile.E, Tile.E, Tile.E, Tile.E, Tile.E, Tile.E],
    [Tile.E, Tile.E, Tile.E, Tile.E, Tile.E, Tile.E],
    [Tile.W, Tile.W, Tile.W, Tile.W, Tile.W, Tile.W],
    [Tile.W, Tile.W, Tile.W, Tile.W, Tile.W, Tile.W] ]

/-- The per-cell colour swap of `invert_board`: `"W"` becomes `"B"`,
`"B"` becomes `"W"`, anything else is untouched. -/
def swapTile : Tile → Tile
  | Tile.W => Tile.B
  | Tile.B => Tile.W
  | Tile.E => Tile.E

/-- `invert_board(board)` as a value: `board.reverse()` followed by the
per-cell colour swap.  (The in-place/copy calling convention is modelled
separately on the heap model below.) -/
def invert_board (b : Board) : Board :=
  (b.reverse).map (fun row => row.map swapTile)

/-- `is_valid_move(board, src, dst)`.  The source cell is read with no
bounds check (Python may raise `IndexError`, modelled as `none`); the
destination is bounds-checked against `ROW`/`COL` before being read. -/
def is_valid_move (b : Board) (src dst : Int × Int) : Option Bool :=
  match getCell b src.1 src.2 with
  | none => none
  | some t =>
    -- if move not made for black
    if t ≠ Tile.B then some false
    -- if move takes pawn outside the board
    else if dst.1 < 0 ∨ dst.1 ≥ ROW ∨ dst.2 < 0 ∨ dst.2 ≥ COL then some false
    -- if move takes more than one step forward
    else if dst.1 ≠ src.1 + 1 then some false
    -- if move takes beyond left/right diagonal
    else if dst.2 > src.2 + 1 ∨ dst.2 < src.2 - 1 then some false
    else
      match getCell b dst.1 dst.2 with
      | none => none
      | some u =>
        -- if pawn to the front, but still move forward
        if dst.2 = src.2 ∧ u ≠ Tile.E then some false
        -- if black pawn to the diagonal, but still move forward
        else if (dst.2 = src.2 + 1 ∨ dst.2 = src.2 - 1) ∧ u = Tile.B then some false
        else some true

/-- The destination-column offsets tried by `generate_rand_move`:
`for d in (-1, 0, 1)`. -/
def dirs : List Int := [-1, 0, 1]

/-- The inner `for d in (-1, 0, 1)` loop of `generate_rand_move` at source
cell `(r, c)`.  Outer `none` = an exception escaped from `is_valid_move`;
`some none` = no valid destination here, the scan continues. -/
def tryDirs (b : Board) (r c : Nat) : List Int → Option (Option Move)
  | [] => some none
  | d :: ds =>
    match is_valid_move b ((r : Int), (c : Int)) ((r : Int) + 1, (c : Int) + d) with
    | none => none
    | some true => some (some (((r : Int), (c : Int)), ((r : Int) + 1, (c : Int) + d)))
    | some false => tryDirs b r c ds

/-- The inner `for c, tile in enumerate(row)` loop of `generate_rand_move`,
with `c` the index of the head of the remaining tiles `ts`.  Tiles other
than `"B"` are skipped (`continue`). -/
def scanRow (b : Board) (r : Nat) : Nat → List Tile → Option (Option Move)
  | _, [] => some none
  | c, t :: ts =>
    if t = Tile.B then
      match tryDirs b r c dirs with
      | none => none
      | some (some m) => some (some m)
      | some none => scanRow b r (c + 1) ts
    else scanRow b r (c + 1) ts

/-- The outer `for r, row in enumerate(board)` loop of
`generate_rand_move`. -/
def scanRows (b : Board) : Nat → List (List Tile) → Option (Option Move)
  | _, [] => some none
  | r, row :: rows =>
    match scanRow b r 0 row with
    | none => none
    | some (some m) => some (some m)
    | some none => scanRows b (r + 1) rows

/-- `generate_rand_move(board)`: row-major scan; for each `"B"` tile try the
offsets `-1, 0, 1` and return the first move `is_valid_move` accepts.
`none` = the function raises (`ValueError("no valid move")` when the scan
finds nothing, or a propagated exception). -/
def generate_rand_move (b : Board) : Option Move :=
  match scanRows b 0 b with
  | some (some m) => some m
  | _ => none

/-- `state_change(board, src, dst)` as a value: if the move is valid, the
source cell is set to `"_"` and then the destination cell to `"B"`;
otherwise the board is returned unchanged.  `none` = a Python exception. -/
def state_change (b : Board) (src dst : Int × Int) : Option Board :=
  match is_valid_move b src dst with
  | none => none
  | some false => some b
  | some true =>
    (setCell b src.1 src.2 Tile.E).bind (fun b1 => setCell b1 dst.1 dst.2 Tile.B)

/-- Count of cells equal to `t` (the `wcount`/`bcount` loop of
`is_game_over`). -/
def countTile (b : Board) (t : Tile) : Nat :=
  (b.map (fun row => row.countP (fun x => x = t))).sum

/-- `is_game_over(board)`: some `"B"` in `board[5]`, or some `"W"` in
`board[0]`, or one colour has no pawns left. -/
def is_game_over (b : Board) : Option Bool :=
  (pyGet b 5).bind (fun r5 =>
    (pyGet b 0).bind (fun r0 =>
      if r5.any (fun t => t = Tile.B) || r0.any (fun t => t = Tile.W) then some true
      else some (decide (countTile b Tile.B = 0) || decide (countTile b Tile.W = 0))))

/-- The front-of-list index a Python index `i` actually addresses in a list
of length `len`. -/
def normIdx (i : Int) (len : Nat) : Int := if 0 ≤ i then i else i + len

/-- Both coordinates of a position, normalised for a 6x6 grid. -/
def pyNorm (p : Int × Int) : Int × Int := (normIdx p.1 6, normIdx p.2 6)

/-! ### The scan order of `generate_rand_move` -/

/-- Spec-side description of the scan: the move candidates tried at source
cell `(r, c)`, in the fixed offset order -1, 0, 1. -/
def cellCands (r c : Nat) : List Move :=
  dirs.map (fun d => (((r : Int), (c : Int)), ((r : Int) + 1, (c : Int) + d)))

/-- Spec-side description of the full scan order of `generate_rand_move`:
sources in row-major order, each with its three destination candidates. -/
def scanOrder : List Move :=
  (List.range 6).flatMap (fun r => (List.range 6).flatMap (fun c => cellCands r c))

/-- The acceptance test of the scan: `is_valid_move` returns `True`. -/
def isAccepted (b : Board) (m : Move) : Bool :=
  decide (is_valid_move b m.1 m.2 = some true)

/-- The self-play loop of the end-to-end property: check `is_game_over`,
then apply the move of `generate_rand_move` via `state_change`, at most
`fuel` times.  `none` = some call raised an exception or the fuel ran out
mid-game is NOT signalled here — fuel exhaustion returns the board reached,
so reaching a game-over board within the fuel is the conjunction checked in
the theorem below. -/
def self_play_run : Nat → Board → Option Board
  | 0, b => some b
  | n + 1, b =>
    match is_game_over b with
    | none => none
    | some true => some b
    | some false =>
      match generate_rand_move b with
      | none => none
      | some m =>
        match state_change b m.1 m.2 with
        | none => none
        | some b2 => self_play_run n b2

/-! ### A heap model for the in-place / deep-copy calling convention -/

/-- A Python heap of boards: a reference is an index into the list.  A
`copy.deepcopy` allocates a fresh reference at the end of the heap; an
in-place mutation replaces the value at the given reference. -/
structure PyState : Type where
  heap : List Board

/-- `invert_board(board, in_place)` on the heap: with `in_place` true the
referenced board is replaced by its inversion and the same reference
returned; with `in_place` false the function first deep-copies the board
(fresh reference) and mutates the copy, so the heap gains one entry holding
the inversion and the original entry is untouched. -/
def invert_board_ref (σ : PyState) (r : Nat) (in_place : Bool) :
    Option (PyState × Nat) :=
  match σ.heap[r]? with
  | none => none
  | some bv =>
    if in_place then some (⟨σ.heap.set r (invert_board bv)⟩, r)
    else some (⟨σ.heap ++ [invert_board bv]⟩, σ.heap.length)

/-- `state_change(board, src, dst, in_place)` on the heap, with the same
in-place / deep-copy convention as `invert_board_ref`. -/
def state_change_ref (σ : PyState) (r : Nat) (src dst : Int × Int)
    (in_place : Bool) : Option (PyState × Nat) :=
  match σ.heap[r]? with
  | none => none
  | some bv =>
    match state_change bv src dst with
    | none => none
    | some bv2 =>
      if in_place then some (⟨σ.heap.set r bv2⟩, r)
      else some (⟨σ.heap ++ [bv2]⟩, σ.heap.length)

/-! ### The match driver `play` -/

/-- The outcome of the process-isolated call to Black's agent:
`moved m` = exit code 0 with `m` on the result queue; `errored` = exit
code 1 (the agent raised, `play` returns a failure string); `expired` =
the process was still alive after the 3-second join (exit code `None`);
`signaled` = any other exit code.  In the last two cases no move is
obtained and `src, dst` keep `MOVE_NONE`. -/
inductive BlackOutcome : Type
  | moved : Move → BlackOutcome
  | errored : BlackOutcome
  | expired : BlackOutcome
  | signaled : BlackOutcome

inductive ColorT : Type
  | black : ColorT
  | white : ColorT
deriving DecidableEq

/-- What one iteration of `play`'s loop produces: an early `return` with a
failure string, an uncaught exception, or the next loop state
(board, random_moves, move, colour of the turn just taken). -/
inductive TurnResult : Type
  | fatal : String → TurnResult
  | crash : TurnResult
  | cont : Board → Nat → Nat → ColorT → TurnResult
deriving DecidableEq

/-- The tail of Black's branch in `play` once `src, dst` are fixed:
validity is checked with any exception caught (`is_valid = False`), an
unaccepted move is replaced by `generate_rand_move(board)` with
`random_moves += 1` (a `ValueError` there is uncaught = `crash`), and the
chosen move is applied with `state_change`. -/
def black_apply (board : Board) (random_moves mv : Nat) (m : Move) : TurnResult :=
  if is_valid_move board m.1 m.2 = some true then
    match state_change board m.1 m.2 with
    | none => TurnResult.crash
    | some b2 => TurnResult.cont b2 random_moves (mv + 1) ColorT.black
  else
    match generate_rand_move board with
    | none => TurnResult.crash
    | some m2 =>
      match state_change board m2.1 m2.2 with
      | none => TurnResult.crash
      | some b2 => TurnResult.cont b2 (random_moves + 1) (mv + 1) ColorT.black

/-- One iteration of the `while not is_game_over(board)` loop of `play`.
Black plays on even `move` counters (`players[0]`), under process
isolation and with the validity check and fallback; White plays on odd
counters: the board is inverted, the White agent's move is applied with no
validity check and no fallback, and the board is inverted back.  `pB`
returning `none` models the White agent raising (uncaught, so the driver
crashes). -/
def play_turn (pA : Board → BlackOutcome) (pB : Board → Option Move)
    (board : Board) (random_moves mv : Nat) : TurnResult :=
  if mv % 2 = 0 then
    match pA board with
    | BlackOutcome.errored =>
      TurnResult.fatal "Black(Student agent) returned err during move"
    | BlackOutcome.moved m => black_apply board random_moves mv m
    | BlackOutcome.expired => black_apply board random_moves mv MOVE_NONE
    | BlackOutcome.signaled => black_apply board random_moves mv MOVE_NONE
  else
    match pB (invert_board board) with
    | none => TurnResult.crash
    | some m =>
      match state_change (invert_board board) m.1 m.2 with
      | none => TurnResult.crash
      | some b3 =>
        TurnResult.cont (invert_board b3) random_moves (mv + 1) ColorT.white

/-- The Python return value of `play`: a descriptive failure string or the
boolean `color == black`. -/
inductive PlayRes : Type
  | failure : String → PlayRes
  | result : Bool → PlayRes
deriving DecidableEq

/-- The `while not is_game_over(board)` loop of `play`, bounded by `fuel`
iterations (`none` = a crash, or fuel exhausted mid-game).  Returns the
Python return value together with the final board.  `color` holds the
colour of the last turn taken (`None` before any turn); on game over the
driver returns `color == black`. -/
def play_loop (pA : Board → BlackOutcome) (pB : Board → Option Move) :
    Nat → Board → Nat → Nat → Option ColorT → Option (PlayRes × Board)
  | 0, board, _, _, color =>
    match is_game_over board with
    | none => none
    | some true => some (PlayRes.result (decide (color = some ColorT.black)), board)
    | some false => none
  | fuel + 1, board, random_moves, mv, color =>
    match is_game_over board with
    | none => none
    | some true => some (PlayRes.result (decide (color = some ColorT.black)), board)
    | some false =>
      match play_turn pA pB board random_moves mv with
      | TurnResult.fatal msg => some (PlayRes.failure msg, board)
      | TurnResult.crash => none
      | TurnResult.cont b2 rm2 mv2 c => play_loop pA pB fuel b2 rm2 mv2 (some c)

/-- `play(playerAI_A, playerAI_B, board)`, its loop bounded by `fuel`.  The
two `players.append` try/except blocks cannot fail and are omitted. -/
def play (pA : Board → BlackOutcome) (pB : Board → Option Move)
    (board : Board) (fuel : Nat) : Option (PlayRes × Board) :=
  play_loop pA pB fuel board 0 0 none

/-- An agent whose isolated call always times out (for witnesses). -/
def alwaysExpired : Board → BlackOutcome := fun _ => BlackOutcome.expired

/-- A White agent that always returns the fixed move ((0,0),(0,0)), which
is never a valid move (its destination row is not one below its source).
Used in the C5 counterexample. -/
def whiteFixed : Board → Option Move := fun _ => some ((0, 0), (0, 0))

/-- A finished board: Black has reached the last row (for witnesses). -/
def finishedBoard : Board :=
  [ [Tile.E, Tile.E, Tile.E, Tile.E, Tile.E, Tile.E],
    [Tile.E, Tile.E, Tile.E, Tile.E, Tile.E, Tile.E],
    [Tile.E, Tile.E, Tile.E, Tile.E, Tile.E, Tile.E],
    [Tile.E, Tile.E, Tile.E, Tile.E, Tile.E, Tile.E],
    [Tile.E, Tile.E, Tile.E, Tile.E, Tile.E, Tile.E],
    [Tile.B, Tile.E, Tile.E, Tile.E, Tile.E, Tile.E] ]

/-! ### Basic lemmas about the Python-indexing layer -/

theorem pyGet_nonneg {α : Type} (l : List α) (i : Int) (h : 0 ≤ i) :
    pyGet l i = l[i.toNat]? := by
  unfold pyGet
  rw [if_pos h]

theorem pyGet_some_of_lt {α : Type} {l : List α} {i : Int} (h0 : 0 ≤ i)
    (h : i < l.length) : ∃ x, pyGet l i = some x ∧ l[i.toNat]? = some x := by
  rw [pyGet_nonneg l i h0]
  have hlt : i.toNat < l.length := by omega
  exact ⟨l[i.toNat], List.getElem?_eq_getElem hlt, List.getElem?_eq_getElem hlt⟩

theorem WF_row {b : Board} (hb : WF b) {r : Int} (hr0 : 0 ≤ r) (hr : r < 6) :
    ∃ row, pyGet b r = some row ∧ row.length = 6 := by
  obtain ⟨hlen, hrows⟩ := hb
  have hr6 : r < (b.length : Int) := by omega
  obtain ⟨row, hrow, _⟩ := pyGet_some_of_lt hr0 hr6
  refine ⟨row, hrow, hrows row ?_⟩
  have := List.getElem?_eq_some_iff.mp ((pyGet_nonneg b r hr0) ▸ hrow)
  obtain ⟨h1, h2⟩ := this
  exact h2 ▸ List.getElem_mem h1

theorem getCell_WF {b : Board} (hb : WF b) {r c : Int} (hr0 : 0 ≤ r) (hr : r < 6)
    (hc0 : 0 ≤ c) (hc : c < 6) : ∃ t, getCell b r c = some t := by
  obtain ⟨row, hrow, hlen⟩ := WF_row hb hr0 hr
  have hc6 : c < (row.length : Int) := by omega
  obtain ⟨t, ht, _⟩ := pyGet_some_of_lt hc0 hc6
  exact ⟨t, by simp [getCell, hrow, ht]⟩

/-- An in-grid source on a well-formed board makes `is_valid_move` total:
the destination is bounds-checked before its cell is read. -/
theorem is_valid_move_total (b : Board) (hb : WF b) (sr sc : Int)
    (hsr0 : 0 ≤ sr) (hsr : sr < 6) (hsc0 : 0 ≤ sc) (hsc : sc < 6) (dr dc : Int) :
    ∃ v, is_valid_move b (sr, sc) (dr, dc) = some v := by
  obtain ⟨t, ht⟩ := getCell_WF hb hsr0 hsr hsc0 hsc
  unfold is_valid_move
  rw [ht]
  by_cases h1 : t ≠ Tile.B
  · exact ⟨false, by simp [h1]⟩
  by_cases h2 : dr < 0 ∨ dr ≥ ROW ∨ dc < 0 ∨ dc ≥ COL
  · exact ⟨false, by simp [h1, h2]⟩
  · have hb2 : 0 ≤ dr ∧ dr < 6 ∧ 0 ≤ dc ∧ dc < 6 := by
      simp only [ROW, COL] at h2; omega
    obtain ⟨u, hu⟩ := getCell_WF hb hb2.1 hb2.2.1 hb2.2.2.1 hb2.2.2.2
    simp only [h1, h2, ite_false, ite_true, if_false, if_true]
    simp only [hu]
    by_cases h3 : dr ≠ sr + 1
    · exact ⟨false, by simp [h3]⟩
    by_cases h4 : dc > sc + 1 ∨ dc < sc - 1
    · exact ⟨false, by simp [h3, h4]⟩
    simp only [h3, h4, ite_false, ite_true, if_false, if_true]
    by_cases h5 : dc = sc ∧ u ≠ Tile.E
    · exact ⟨false, by simp [h5]⟩
    by_cases h6 : (dc = sc + 1 ∨ dc = sc - 1) ∧ u = Tile.B
    · exact ⟨false, by simp [h5, h6]⟩
    · exact ⟨true, by simp [h5, h6]⟩

theorem swapTile_swapTile (t : Tile) : swapTile (swapTile t) = t := by
  cases t <;> rfl

/-- Claim C9: on every fully populated 6x6 board, `is_valid_move` with an
in-grid source returns a boolean for every integer destination (the
destination is bounds-checked before its cell is read); for sources outside
the grid this totality fails, e.g. source row 6 raises `IndexError`. -/
theorem C9_valid_move_totality :
    (∀ (b : Board) (sr sc dr dc : Int), WF b → 0 ≤ sr → sr < 6 → 0 ≤ sc → sc < 6 →
      ∃ v, is_valid_move b (sr, sc) (dr, dc) = some v) ∧
    is_valid_move generate_init_state (6, 0) (7, 0) = none := by
  refine ⟨?_, by decide⟩
  intro b sr sc dr dc hb h1 h2 h3 h4
  exact is_valid_move_total b hb sr sc h1 h2 h3 h4 dr dc

theorem C9_valid_move_totality_witness :
    WF generate_init_state ∧
      ∃ v, is_valid_move generate_init_state (0, 0) (1, 7) = some v :=
  ⟨by decide,
    C9_valid_move_totality.1 generate_init_state 0 0 1 7 (by decide) (by decide)
      (by decide) (by decide) (by decide)⟩

/-- Claim C6: for every fully populated 6x6 board, `invert_board` applied
twice returns the original board. -/
theorem C6_invert_involution (b : Board) (_hb : WF b) :
    invert_board (invert_board b) = b := by
  simp [invert_board, List.map_map, Function.comp_def, swapTile_swapTile]

theorem C6_invert_involution_witness :
    WF generate_init_state ∧
      invert_board (invert_board generate_init_state) = generate_init_state :=
  ⟨by decide, C6_invert_involution generate_init_state (by decide)⟩

/-- Claim C1: on a fully populated 6x6 board, a move from an in-grid source
is valid iff the source cell holds a black pawn, the destination is in
bounds, it is one row down and at most one column sideways, a straight
advance lands on an empty cell, and a diagonal advance does not land on a
black pawn. -/
theorem C1_valid_move_characterisation (b : Board) (hb : WF b) (sr sc dr dc : Int)
    (hsr0 : 0 ≤ sr) (hsr : sr < 6) (hsc0 : 0 ≤ sc) (hsc : sc < 6) :
    is_valid_move b (sr, sc) (dr, dc) = some true ↔
      (getCell b sr sc = some Tile.B ∧
       (0 ≤ dr ∧ dr < 6 ∧ 0 ≤ dc ∧ dc < 6) ∧
       dr = sr + 1 ∧
       sc - 1 ≤ dc ∧ dc ≤ sc + 1 ∧
       (dc = sc → getCell b dr dc = some Tile.E) ∧
       (dc ≠ sc → ¬ getCell b dr dc = some Tile.B)) := by
  obtain ⟨t, ht⟩ := getCell_WF hb hsr0 hsr hsc0 hsc
  have hsrc : (getCell b sr sc = some Tile.B) ↔ t = Tile.B := by
    rw [ht]; simp
  unfold is_valid_move
  simp only [ht]
  by_cases ht1 : t = Tile.B
  · subst ht1
    rw [if_neg (by simp)]
    by_cases h2 : dr < 0 ∨ dr ≥ ROW ∨ dc < 0 ∨ dc ≥ COL
    · rw [if_pos h2]
      apply iff_of_false (by simp)
      rintro ⟨-, hbnd, -⟩
      simp only [ROW, COL] at h2
      omega
    · rw [if_neg h2]
      have hbnd : 0 ≤ dr ∧ dr < 6 ∧ 0 ≤ dc ∧ dc < 6 := by
        simp only [ROW, COL] at h2; omega
      obtain ⟨u, hu⟩ := getCell_WF hb hbnd.1 hbnd.2.1 hbnd.2.2.1 hbnd.2.2.2
      by_cases h3 : dr = sr + 1
      · rw [if_neg (by simp [h3])]
        by_cases h4 : dc > sc + 1 ∨ dc < sc - 1
        · rw [if_pos h4]
          apply iff_of_false (by simp)
          rintro ⟨-, -, -, hd1, hd2, -⟩
          omega
        · rw [if_neg h4]
          simp only [hu]
          by_cases h5 : dc = sc ∧ u ≠ Tile.E
          · rw [if_pos h5]
            apply iff_of_false (by simp)
            rintro ⟨-, -, -, -, -, hstraight, -⟩
            have hE := hstraight h5.1
            exact h5.2 (by injection hE)
          · rw [if_neg h5]
            by_cases h6 : (dc = sc + 1 ∨ dc = sc - 1) ∧ u = Tile.B
            · rw [if_pos h6]
              apply iff_of_false (by simp)
              rintro ⟨-, -, -, -, -, -, hdiag⟩
              have hne : dc ≠ sc := by rcases h6.1 with h | h <;> omega
              exact hdiag hne (by rw [h6.2])
            · rw [if_neg h6]
              apply iff_of_true rfl
              refine ⟨trivial, hbnd, h3, by omega, by omega, ?_, ?_⟩
              · intro hdc
                have hE : u = Tile.E := by
                  by_contra hne
                  exact h5 ⟨hdc, hne⟩
                rw [hE]
              · intro hdc hcell
                have hu2 : u = Tile.B := by injection hcell
                have hd : dc = sc + 1 ∨ dc = sc - 1 := by omega
                exact h6 ⟨hd, hu2⟩
      · rw [if_pos h3]
        apply iff_of_false (by simp)
        rintro ⟨-, -, h3x, -⟩
        exact h3 h3x
  · rw [if_pos ht1]
    apply iff_of_false (by simp)
    rintro ⟨hB, -⟩
    exact ht1 (by injection hB)

theorem C1_valid_move_characterisation_witness :
    WF generate_init_state ∧
      (is_valid_move generate_init_state (1, 0) (2, 0) = some true ↔
        (getCell generate_init_state 1 0 = some Tile.B ∧
         ((0 : Int) ≤ 2 ∧ (2 : Int) < 6 ∧ (0 : Int) ≤ 0 ∧ (0 : Int) < 6) ∧
         (2 : Int) = 1 + 1 ∧
         (0 : Int) - 1 ≤ 0 ∧ (0 : Int) ≤ 0 + 1 ∧
         ((0 : Int) = 0 → getCell generate_init_state 2 0 = some Tile.E) ∧
         ((0 : Int) ≠ 0 → ¬ getCell generate_init_state 2 0 = some Tile.B))) :=
  ⟨by decide,
    C1_valid_move_characterisation generate_init_state (by decide) 1 0 2 0
      (by decide) (by decide) (by decide) (by decide)⟩

theorem row_any_iff {b : Board} {r : Int} {row : List Tile} (hrow : pyGet b r = some row)
    (hlen : row.length = 6) (t0 : Tile) :
    row.any (fun t => t = t0) = true ↔
      ∃ c : Int, 0 ≤ c ∧ c < 6 ∧ getCell b r c = some t0 := by
  rw [List.any_eq_true]
  constructor
  · rintro ⟨x, hx, hxt⟩
    obtain ⟨n, hn, hxn⟩ := List.mem_iff_getElem.mp hx
    refine ⟨(n : Int), by omega, by omega, ?_⟩
    have hget : pyGet row (n : Int) = some x := by
      rw [pyGet_nonneg row (n : Int) (by omega)]
      simpa using List.getElem?_eq_getElem hn ▸ congrArg some hxn
    simp only [getCell, hrow, Option.some_bind, hget]
    simp only [decide_eq_true_eq] at hxt
    rw [hxt]
  · rintro ⟨c, hc0, hc6, hcell⟩
    simp only [getCell, hrow, Option.some_bind] at hcell
    rw [pyGet_nonneg row c hc0] at hcell
    exact ⟨t0, List.getElem?_mem hcell, by simp⟩

/-- Claim C3: on a fully populated 6x6 board, `is_game_over` is true iff a
black pawn sits on row 5, or a white pawn sits on row 0, or one colour has
no pawns left; and it is false on the initial board. -/
theorem C3_game_over_characterisation (b : Board) (hb : WF b) :
    (is_game_over b = some true ↔
      (∃ c : Int, 0 ≤ c ∧ c < 6 ∧ getCell b 5 c = some Tile.B) ∨
      (∃ c : Int, 0 ≤ c ∧ c < 6 ∧ getCell b 0 c = some Tile.W) ∨
      countTile b Tile.B = 0 ∨ countTile b Tile.W = 0) ∧
    is_game_over generate_init_state = some false := by
  refine ⟨?_, by decide⟩
  obtain ⟨r5, hr5, hr5len⟩ := WF_row (r := 5) hb (by norm_num) (by norm_num)
  obtain ⟨r0, hr0, hr0len⟩ := WF_row (r := 0) hb (by norm_num) (by norm_num)
  unfold is_game_over
  rw [hr5, hr0]
  simp only [Option.some_bind]
  by_cases hcase : (r5.any (fun t => t = Tile.B) || r0.any (fun t => t = Tile.W)) = true
  · rw [if_pos hcase]
    apply iff_of_true rfl
    rcases Bool.or_eq_true_iff.mp hcase with h | h
    · exact Or.inl ((row_any_iff hr5 hr5len Tile.B).mp h)
    · exact Or.inr (Or.inl ((row_any_iff hr0 hr0len Tile.W).mp h))
  · rw [if_neg hcase]
    rw [Bool.or_eq_true_iff] at hcase
    push_neg at hcase
    have h5 : ¬ ∃ c : Int, 0 ≤ c ∧ c < 6 ∧ getCell b 5 c = some Tile.B := by
      rw [← row_any_iff hr5 hr5len Tile.B]
      simp [hcase.1]
    have h0 : ¬ ∃ c : Int, 0 ≤ c ∧ c < 6 ∧ getCell b 0 c = some Tile.W := by
      rw [← row_any_iff hr0 hr0len Tile.W]
      simp [hcase.2]
    simp only [h5, h0, false_or]
    constructor
    · intro h
      have := Option.some.inj h
      rcases Bool.or_eq_true_iff.mp this with h | h
      · exact Or.inl (of_decide_eq_true h)
      · exact Or.inr (of_decide_eq_true h)
    · intro h
      rcases h with h | h
      · simp [h]
      · simp [h]

theorem C3_game_over_characterisation_witness :
    WF generate_init_state ∧
      ((is_game_over generate_init_state = some true ↔
        (∃ c : Int, 0 ≤ c ∧ c < 6 ∧ getCell generate_init_state 5 c = some Tile.B) ∨
        (∃ c : Int, 0 ≤ c ∧ c < 6 ∧ getCell generate_init_state 0 c = some Tile.W) ∨
        countTile generate_init_state Tile.B = 0 ∨
        countTile generate_init_state Tile.W = 0) ∧
       is_game_over generate_init_state = some false) :=
  ⟨by decide, C3_game_over_characterisation generate_init_state (by decide)⟩

theorem normIdx_cases (i : Int) (len : Nat) :
    (0 ≤ i ∧ normIdx i len = i) ∨ (i < 0 ∧ normIdx i len = i + len) := by
  unfold normIdx
  by_cases h : 0 ≤ i
  · exact Or.inl ⟨h, if_pos h⟩
  · exact Or.inr ⟨by omega, if_neg h⟩

theorem pyGet_norm {α : Type} {l : List α} {i : Int} {x : α} (h : pyGet l i = some x) :
    0 ≤ normIdx i l.length ∧ normIdx i l.length < l.length ∧
      l[(normIdx i l.length).toNat]? = some x := by
  unfold pyGet at h
  unfold normIdx
  split at h
  case isTrue h0 =>
    obtain ⟨hlt, -⟩ := List.getElem?_eq_some_iff.mp h
    rw [if_pos h0]
    exact ⟨h0, by omega, h⟩
  case isFalse h0 =>
    split at h
    case isTrue h1 =>
      obtain ⟨hlt, -⟩ := List.getElem?_eq_some_iff.mp h
      rw [if_neg h0]
      exact ⟨h1, by omega, h⟩
    case isFalse h1 => exact absurd h (by simp)

theorem pySet_of_pyGet {α : Type} {l : List α} {i : Int} {x : α} (a : α)
    (h : pyGet l i = some x) :
    pySet l i a = some (l.set (normIdx i l.length).toNat a) := by
  obtain ⟨hn0, hnlt, -⟩ := pyGet_norm h
  unfold pySet
  rcases normIdx_cases i l.length with ⟨h0, heq⟩ | ⟨h0, heq⟩
  · rw [if_pos ⟨h0, by omega⟩, heq]
  · rw [if_neg (by omega), if_pos ⟨h0, by omega⟩, heq]

theorem getCell_nonneg {b : Board} (r c : Int) (hr : 0 ≤ r) (hc : 0 ≤ c) :
    getCell b r c = (b[r.toNat]?).bind (fun row => row[c.toNat]?) := by
  unfold getCell
  rw [pyGet_nonneg b r hr]
  cases h : b[r.toNat]? with
  | none => rfl
  | some row => simp [pyGet_nonneg row c hc]

theorem setCell_eq {b : Board} {r c : Int} {row : List Tile} {x : Tile} (t : Tile)
    (hrow : pyGet b r = some row) (hcell : pyGet row c = some x) :
    setCell b r c t =
      some (b.set (normIdx r b.length).toNat
        (row.set (normIdx c row.length).toNat t)) := by
  unfold setCell
  rw [hrow, Option.some_bind, pySet_of_pyGet t hcell, Option.some_bind,
    pySet_of_pyGet _ hrow]

theorem WF_set {b : Board} (hb : WF b) {n : Nat} {row : List Tile}
    (hlen : row.length = 6) : WF (b.set n row) := by
  refine ⟨by simp [hb.1], ?_⟩
  intro r hr
  rcases List.mem_or_eq_of_mem_set hr with h | h
  · exact hb.2 r h
  · rw [h]; exact hlen

/-- The facts about a move that `is_valid_move ... = some true` guarantees
before any cell is written. -/
theorem is_valid_move_true_facts {b : Board} {src dst : Int × Int}
    (h : is_valid_move b src dst = some true) :
    getCell b src.1 src.2 = some Tile.B ∧
      0 ≤ dst.1 ∧ dst.1 < 6 ∧ 0 ≤ dst.2 ∧ dst.2 < 6 ∧ dst.1 = src.1 + 1 := by
  unfold is_valid_move at h
  cases hsrc : getCell b src.1 src.2 with
  | none => rw [hsrc] at h; exact absurd h (by simp)
  | some t =>
    simp only [hsrc] at h
    split_ifs at h with h1 h2 h3 h4
    · exact absurd h (by simp)
    · exact absurd h (by simp)
    · exact absurd h (by simp)
    · exact absurd h (by simp)
    · simp only [ROW, COL] at h2
      refine ⟨?_, by omega, by omega, by omega, by omega, not_not.mp h3⟩
      congr 1
      by_contra hne
      exact h1 hne

/-- Claim C2: if a move is valid, `state_change` empties the source cell,
puts a black pawn on the destination cell and leaves every other cell
unchanged; if the move is invalid the board is returned unchanged.  Cells
are named by the grid position the (possibly negative) Python index
actually addresses (`pyNorm`). -/
theorem C2_state_change_effect (b : Board) (hb : WF b) (src dst : Int × Int) :
    (is_valid_move b src dst = some true →
      ∃ b2, state_change b src dst = some b2 ∧ WF b2 ∧
        ∀ r c : Int, 0 ≤ r → r < 6 → 0 ≤ c → c < 6 →
          getCell b2 r c =
            (if (r, c) = pyNorm dst then some Tile.B
             else if (r, c) = pyNorm src then some Tile.E
             else getCell b r c)) ∧
    (is_valid_move b src dst = some false → state_change b src dst = some b) := by
  constructor
  swap
  · intro hv
    unfold state_change
    rw [hv]
  intro hv
  obtain ⟨hsrcB, hdr0, hdr6, hdc0, hdc6, hstep⟩ := is_valid_move_true_facts hv
  obtain ⟨srow, hsrow, hscell⟩ := Option.bind_eq_some.mp hsrcB
  have hblen : b.length = 6 := hb.1
  obtain ⟨hnr0, hnrlt, hbrow⟩ := pyGet_norm hsrow
  have hsrowlen : srow.length = 6 := hb.2 srow (List.getElem?_mem hbrow)
  obtain ⟨hnc0, hnclt, hscell2⟩ := pyGet_norm hscell
  set nsr : Nat := (normIdx src.1 b.length).toNat with hnsr
  set nsc : Nat := (normIdx src.2 srow.length).toNat with hnsc
  have hset1 : setCell b src.1 src.2 Tile.E = some (b.set nsr (srow.set nsc Tile.E)) :=
    setCell_eq Tile.E hsrow hscell
  set b1 : Board := b.set nsr (srow.set nsc Tile.E) with hb1def
  have hb1WF : WF b1 := WF_set hb (by simp [hsrowlen])
  have hb1len : b1.length = 6 := hb1WF.1
  -- the source row index differs from the destination row index
  have hnsrlt : nsr < 6 := by rw [hnsr]; omega
  have hrowne : dst.1.toNat ≠ nsr := by
    rw [hnsr]
    rcases normIdx_cases src.1 b.length with ⟨h0, heq⟩ | ⟨h0, heq⟩ <;> rw [heq] <;> omega
  -- the destination cell exists on b1
  obtain ⟨u, hu⟩ := getCell_WF hb1WF hdr0 hdr6 hdc0 hdc6
  obtain ⟨drow, hdrow, hdcell⟩ := Option.bind_eq_some.mp hu
  obtain ⟨hmr0, hmrlt, hb1row⟩ := pyGet_norm hdrow
  have hdrowlen : drow.length = 6 := hb1WF.2 drow (List.getElem?_mem hb1row)
  have hnormdr : normIdx dst.1 b1.length = dst.1 := if_pos hdr0
  have hnormdc : normIdx dst.2 drow.length = dst.2 := if_pos hdc0
  have hset2 : setCell b1 dst.1 dst.2 Tile.B =
      some (b1.set dst.1.toNat (drow.set dst.2.toNat Tile.B)) := by
    rw [setCell_eq Tile.B hdrow hdcell, hnormdr, hnormdc]
  set b2 : Board := b1.set dst.1.toNat (drow.set dst.2.toNat Tile.B) with hb2def
  have hrun : state_change b src dst = some b2 := by
    unfold state_change
    rw [hv, hset1, Option.some_bind, hset2]
  have hb2WF : WF b2 := WF_set hb1WF (by simp [hdrowlen])
  -- drow is in fact the untouched destination row of b
  have hdrow_b : b[dst.1.toNat]? = some drow := by
    rw [hnormdr] at hb1row
    rw [hb1def] at hb1row
    rwa [List.getElem?_set_ne hrowne.symm] at hb1row
  refine ⟨b2, hrun, hb2WF, ?_⟩
  intro r c hr0 hr6 hc0 hc6
  have hiff1 : ((r, c) = pyNorm dst) ↔ (r.toNat = dst.1.toNat ∧ c.toNat = dst.2.toNat) := by
    simp only [pyNorm, normIdx, if_pos hdr0, if_pos hdc0, Prod.mk.injEq]
    omega
  have hnr0x : 0 ≤ normIdx src.1 6 := by rw [← hblen]; exact hnr0
  have hnrltx : normIdx src.1 6 < 6 := by
    have hx := hnrlt
    rw [hblen] at hx
    exact_mod_cast hx
  have hnc0x : 0 ≤ normIdx src.2 6 := by rw [← hsrowlen]; exact hnc0
  have hncltx : normIdx src.2 6 < 6 := by
    have hx := hnclt
    rw [hsrowlen] at hx
    exact_mod_cast hx
  have hiff2 : ((r, c) = pyNorm src) ↔ (r.toNat = nsr ∧ c.toNat = nsc) := by
    simp only [pyNorm, Prod.mk.injEq, hnsr, hnsc, hblen, hsrowlen]
    omega
  rw [getCell_nonneg r c hr0 hc0, getCell_nonneg r c hr0 hc0]
  by_cases hrd : r.toNat = dst.1.toNat
  · -- destination row
    have hb2row : b2[r.toNat]? = some (drow.set dst.2.toNat Tile.B) := by
      rw [hb2def, hrd]
      exact List.getElem?_set_self (by omega)
    rw [hb2row, Option.some_bind]
    by_cases hcd : c.toNat = dst.2.toNat
    · rw [if_pos (hiff1.mpr ⟨hrd, hcd⟩), hcd]
      exact List.getElem?_set_self (by omega)
    · rw [if_neg (fun hx => hcd (hiff1.mp hx).2),
        if_neg (fun hx => hrowne (hrd ▸ (hiff2.mp hx).1)),
        List.getElem?_set_ne (fun hx => hcd hx.symm), hrd, hdrow_b, Option.some_bind]
  · -- not the destination row
    have hb2row : b2[r.toNat]? = b1[r.toNat]? := by
      rw [hb2def]
      exact List.getElem?_set_ne (fun hx => hrd hx.symm)
    rw [hb2row]
    by_cases hrs : r.toNat = nsr
    · -- source row
      have hb1row2 : b1[r.toNat]? = some (srow.set nsc Tile.E) := by
        rw [hb1def, hrs]
        exact List.getElem?_set_self (by omega)
      rw [hb1row2, Option.some_bind]
      have hb_srow : b[r.toNat]? = some srow := by rw [hrs]; exact hbrow
      by_cases hcs : c.toNat = nsc
      · rw [if_neg (fun hx => hrd (hiff1.mp hx).1), if_pos (hiff2.mpr ⟨hrs, hcs⟩), hcs]
        exact List.getElem?_set_self (by omega)
      · rw [if_neg (fun hx => hrd (hiff1.mp hx).1),
          if_neg (fun hx => hcs (hiff2.mp hx).2),
          List.getElem?_set_ne (fun hx => hcs hx.symm), hb_srow, Option.some_bind]
    · -- any other row
      have hb1row2 : b1[r.toNat]? = b[r.toNat]? := by
        rw [hb1def]
        exact List.getElem?_set_ne (fun hx => hrs hx.symm)
      rw [hb1row2, if_neg (fun hx => hrd (hiff1.mp hx).1),
        if_neg (fun hx => hrs (hiff2.mp hx).1)]

theorem C2_state_change_effect_witness :
    WF generate_init_state ∧
      is_valid_move generate_init_state (1, 0) (2, 0) = some true ∧
      ∃ b2, state_change generate_init_state (1, 0) (2, 0) = some b2 ∧ WF b2 ∧
        ∀ r c : Int, 0 ≤ r → r < 6 → 0 ≤ c → c < 6 →
          getCell b2 r c =
            (if (r, c) = pyNorm (2, 0) then some Tile.B
             else if (r, c) = pyNorm (1, 0) then some Tile.E
             else getCell generate_init_state r c) :=
  ⟨by decide, by decide,
    (C2_state_change_effect generate_init_state (by decide) (1, 0) (2, 0)).1 (by decide)⟩

theorem is_valid_move_src_not_B {b : Board} {sr sc : Int} (dst : Int × Int) {t : Tile}
    (h : getCell b sr sc = some t) (ht : t ≠ Tile.B) :
    is_valid_move b (sr, sc) dst = some false := by
  unfold is_valid_move
  simp only [h]
  rw [if_pos ht]

theorem getCell_natCast {b : Board} {r : Nat} (c : Nat) {row : List Tile}
    (hrow : b[r]? = some row) :
    getCell b (r : Int) (c : Int) = row[c]? := by
  rw [getCell_nonneg _ _ (by positivity) (by positivity)]
  simp only [Int.toNat_natCast, hrow, Option.some_bind]

theorem tryDirs_eq_find {b : Board} (hb : WF b) {r c : Nat} (hr : r < 6) (hc : c < 6)
    (ds : List Int) :
    tryDirs b r c ds =
      some ((ds.map (fun d => (((r : Int), (c : Int)), ((r : Int) + 1, (c : Int) + d)))).find?
        (isAccepted b)) := by
  induction ds with
  | nil => rfl
  | cons d ds ih =>
    obtain ⟨v, hv⟩ := is_valid_move_total b hb (r : Int) (c : Int)
      (by positivity) (by exact_mod_cast hr) (by positivity) (by exact_mod_cast hc)
      ((r : Int) + 1) ((c : Int) + d)
    unfold tryDirs
    rw [hv]
    cases v with
    | true =>
      rw [List.map_cons, List.find?_cons_of_pos _ (by simp [isAccepted, hv])]
    | false =>
      rw [List.map_cons, List.find?_cons_of_neg _ (by simp [isAccepted, hv]), ih]

theorem scanRow_eq_find {b : Board} (hb : WF b) {r : Nat} (hr : r < 6) {row : List Tile}
    (hrow : b[r]? = some row) (ts : List Tile) :
    ∀ c0 : Nat, c0 + ts.length = 6 →
      (∀ i (hi : i < ts.length), row[c0 + i]? = some (ts.get ⟨i, hi⟩)) →
      scanRow b r c0 ts =
        some (((List.range' c0 ts.length).flatMap (fun c => cellCands r c)).find?
          (isAccepted b)) := by
  induction ts with
  | nil =>
    intro c0 h6 hts
    simp [scanRow]
  | cons t ts ih =>
    intro c0 h6 hts
    have hcell : getCell b (r : Int) (c0 : Int) = some t := by
      rw [getCell_natCast c0 hrow]
      simpa using hts 0 (by simp)
    have hc0 : c0 < 6 := by simp at h6; omega
    have hshift : ∀ i (hi : i < ts.length), row[(c0 + 1) + i]? = some (ts.get ⟨i, hi⟩) := by
      intro i hi
      have := hts (i + 1) (by simp; omega)
      simpa [Nat.add_comm, Nat.add_assoc, Nat.add_left_comm] using this
    have hlen : (c0 + 1) + ts.length = 6 := by simp at h6; omega
    rw [List.length_cons, List.range'_succ, List.flatMap_cons, List.find?_append]
    unfold scanRow
    by_cases htB : t = Tile.B
    · rw [if_pos htB]
      have htry := tryDirs_eq_find hb hr hc0 dirs
      rw [show (dirs.map (fun d => (((r : Int), (c0 : Int)), ((r : Int) + 1, (c0 : Int) + d)))) =
          cellCands r c0 from rfl] at htry
      rw [htry]
      cases hfind : (cellCands r c0).find? (isAccepted b) with
      | some m => simp [Option.or_some]
      | none =>
        rw [Option.none_or]
        exact ih (c0 + 1) hlen hshift
    · rw [if_neg htB]
      have hnone : (cellCands r c0).find? (isAccepted b) = none := by
        rw [List.find?_eq_none]
        intro m hm
        simp only [cellCands, List.mem_map] at hm
        obtain ⟨d, -, rfl⟩ := hm
        simp [isAccepted,
          is_valid_move_src_not_B ((r : Int) + 1, (c0 : Int) + d) hcell htB]
      rw [hnone, Option.none_or]
      exact ih (c0 + 1) hlen hshift

theorem scanRows_eq_find {b : Board} (hb : WF b) (rows : List (List Tile)) :
    ∀ r0 : Nat, r0 + rows.length = 6 →
      (∀ i (hi : i < rows.length), b[r0 + i]? = some (rows.get ⟨i, hi⟩)) →
      scanRows b r0 rows =
        some (((List.range' r0 rows.length).flatMap
          (fun r => (List.range 6).flatMap (fun c => cellCands r c))).find?
            (isAccepted b)) := by
  induction rows with
  | nil =>
    intro r0 h6 hrows
    simp [scanRows]
  | cons row rows ih =>
    intro r0 h6 hrows
    have hrow : b[r0]? = some row := by simpa using hrows 0 (by simp)
    have hr0 : r0 < 6 := by simp at h6; omega
    have hrowlen : row.length = 6 := hb.2 row (List.getElem?_mem hrow)
    have hshift : ∀ i (hi : i < rows.length), b[(r0 + 1) + i]? = some (rows.get ⟨i, hi⟩) := by
      intro i hi
      have := hrows (i + 1) (by simp; omega)
      simpa [Nat.add_comm, Nat.add_assoc, Nat.add_left_comm] using this
    have hlen : (r0 + 1) + rows.length = 6 := by simp at h6; omega
    have hscan := scanRow_eq_find hb hr0 hrow row 0 (by simpa using hrowlen)
      (by intro i hi; simp [List.getElem?_eq_getElem hi])
    rw [List.length_cons, List.range'_succ, List.flatMap_cons, List.find?_append]
    unfold scanRows
    rw [show List.range' 0 row.length = List.range 6 by
      rw [hrowlen, List.range_eq_range']] at hscan
    rw [hscan]
    cases hfind : ((List.range 6).flatMap (fun c => cellCands r0 c)).find? (isAccepted b) with
    | some m => simp [Option.or_some]
    | none =>
      rw [Option.none_or]
      exact ih (r0 + 1) hlen hshift

/-- On a well-formed board, `generate_rand_move` returns exactly the first
candidate of the row-major scan order accepted by `is_valid_move`. -/
theorem generate_rand_move_eq_find {b : Board} (hb : WF b) :
    generate_rand_move b = scanOrder.find? (isAccepted b) := by
  have h := scanRows_eq_find hb b 0 (by simpa using hb.1)
    (by intro i hi; simp [List.getElem?_eq_getElem hi])
  rw [show List.range' 0 b.length = List.range 6 by
    rw [hb.1, List.range_eq_range']] at h
  unfold generate_rand_move scanOrder
  rw [h]
  cases hfind : ((List.range 6).flatMap
      (fun r => (List.range 6).flatMap (fun c => cellCands r c))).find? (isAccepted b) with
  | some m => rfl
  | none => rfl

theorem generate_rand_move_valid {b : Board} (hb : WF b) {m : Move}
    (h : generate_rand_move b = some m) : is_valid_move b m.1 m.2 = some true := by
  rw [generate_rand_move_eq_find hb] at h
  simpa [isAccepted] using List.find?_some h

/-- Claim C4 counterexample: on the initial board, the first black pawn in
row-major order sits at (0,0) and `is_valid_move` rejects all three of its
destinations, yet `generate_rand_move` neither fails nor returns a move of
that pawn — it returns the later pawn move ((1,0),(2,0)).  So the function
does not restrict its trials to "the first BLACK_PAWN found". -/
theorem C4_rand_move_counterexample :
    getCell generate_init_state 0 0 = some Tile.B ∧
    is_valid_move generate_init_state (0, 0) (1, -1) = some false ∧
    is_valid_move generate_init_state (0, 0) (1, 0) = some false ∧
    is_valid_move generate_init_state (0, 0) (1, 1) = some false ∧
    generate_rand_move generate_init_state = some ((1, 0), (2, 0)) := by
  decide

/-- Claim C4 (amended): on a fully populated 6x6 board,
`generate_rand_move` scans cells in row-major order and, for each black
pawn in that order, tries the destinations one row down at column offsets
-1, 0, +1, returning the first candidate of that combined order that
`is_valid_move` accepts (`scanOrder` lists the candidates in exactly that
order); it fails with an error exactly when no candidate of the scan is
accepted, i.e. when no black pawn on the board has a valid move. -/
theorem C4_rand_move_scan (b : Board) (hb : WF b) :
    generate_rand_move b = scanOrder.find? (isAccepted b) ∧
    (generate_rand_move b = none ↔
      ∀ m ∈ scanOrder, ¬ is_valid_move b m.1 m.2 = some true) := by
  have h := generate_rand_move_eq_find hb
  refine ⟨h, ?_⟩
  rw [h, List.find?_eq_none]
  simp [isAccepted]

theorem C4_rand_move_scan_witness :
    WF generate_init_state ∧
      (generate_rand_move generate_init_state =
        scanOrder.find? (isAccepted generate_init_state) ∧
       (generate_rand_move generate_init_state = none ↔
        ∀ m ∈ scanOrder,
          ¬ is_valid_move generate_init_state m.1 m.2 = some true)) :=
  ⟨by decide, C4_rand_move_scan generate_init_state (by decide)⟩

/-- Claim C8: starting from the initial board, the self-play loop
(`is_game_over` check, then `generate_rand_move` + `state_change`) raises
no error and reaches a game-over board within 200 moves.  (It in fact
terminates after 37 moves.) -/
theorem C8_self_play_terminates :
    (self_play_run 200 generate_init_state).bind is_game_over = some true := by
  decide

/-- Claim C7: with `in_place = False`, `invert_board` and `state_change`
return a fresh reference (a mutated deep copy) and leave the original
board's entry untouched; with `in_place = True` they mutate and return the
very same reference. -/
theorem C7_in_place_contract (σ : PyState) (r : Nat) (bv : Board)
    (h : σ.heap[r]? = some bv) :
    (∃ σ2 r2, invert_board_ref σ r false = some (σ2, r2) ∧
      r2 ≠ r ∧ σ2.heap[r]? = some bv ∧ σ2.heap[r2]? = some (invert_board bv)) ∧
    (∃ σ2, invert_board_ref σ r true = some (σ2, r) ∧
      σ2.heap[r]? = some (invert_board bv)) ∧
    (∀ src dst bv2, state_change bv src dst = some bv2 →
      ∃ σ2 r2, state_change_ref σ r src dst false = some (σ2, r2) ∧
        r2 ≠ r ∧ σ2.heap[r]? = some bv ∧ σ2.heap[r2]? = some bv2) ∧
    (∀ src dst bv2, state_change bv src dst = some bv2 →
      ∃ σ2, state_change_ref σ r src dst true = some (σ2, r) ∧
        σ2.heap[r]? = some bv2) := by
  obtain ⟨hr, -⟩ := List.getElem?_eq_some_iff.mp h
  refine ⟨⟨⟨σ.heap ++ [invert_board bv]⟩, σ.heap.length, ?_, ?_, ?_, ?_⟩,
    ⟨⟨σ.heap.set r (invert_board bv)⟩, ?_, ?_⟩, ?_, ?_⟩
  · unfold invert_board_ref
    rw [h]
    rfl
  · omega
  · exact (List.getElem?_append_left hr).trans h
  · exact List.getElem?_concat_length σ.heap (invert_board bv)
  · unfold invert_board_ref
    rw [h]
    rfl
  · exact List.getElem?_set_self hr
  · intro src dst bv2 hsc
    refine ⟨⟨σ.heap ++ [bv2]⟩, σ.heap.length, ?_, by omega, ?_, ?_⟩
    · simp [state_change_ref, h, hsc]
    · exact (List.getElem?_append_left hr).trans h
    · exact List.getElem?_concat_length σ.heap bv2
  · intro src dst bv2 hsc
    refine ⟨⟨σ.heap.set r bv2⟩, ?_, List.getElem?_set_self hr⟩
    simp [state_change_ref, h, hsc]

theorem C7_in_place_contract_witness :
    (⟨[generate_init_state]⟩ : PyState).heap[0]? = some generate_init_state ∧
    ((∃ σ2 r2, invert_board_ref ⟨[generate_init_state]⟩ 0 false = some (σ2, r2) ∧
      r2 ≠ 0 ∧ σ2.heap[0]? = some generate_init_state ∧
      σ2.heap[r2]? = some (invert_board generate_init_state)) ∧
    (∃ σ2, invert_board_ref ⟨[generate_init_state]⟩ 0 true = some (σ2, 0) ∧
      σ2.heap[0]? = some (invert_board generate_init_state)) ∧
    (∀ src dst bv2, state_change generate_init_state src dst = some bv2 →
      ∃ σ2 r2, state_change_ref ⟨[generate_init_state]⟩ 0 src dst false = some (σ2, r2) ∧
        r2 ≠ 0 ∧ σ2.heap[0]? = some generate_init_state ∧ σ2.heap[r2]? = some bv2) ∧
    (∀ src dst bv2, state_change generate_init_state src dst = some bv2 →
      ∃ σ2, state_change_ref ⟨[generate_init_state]⟩ 0 src dst true = some (σ2, 0) ∧
        σ2.heap[0]? = some bv2)) :=
  ⟨by decide, C7_in_place_contract ⟨[generate_init_state]⟩ 0 generate_init_state (by decide)⟩

/-- A valid move can always be applied: `state_change` returns a board. -/
theorem state_change_total {b : Board} (hb : WF b) {src dst : Int × Int}
    (hv : is_valid_move b src dst = some true) :
    ∃ b2, state_change b src dst = some b2 := by
  obtain ⟨hsrcB, hdr0, hdr6, hdc0, hdc6, -⟩ := is_valid_move_true_facts hv
  obtain ⟨srow, hsrow, hscell⟩ := Option.bind_eq_some.mp hsrcB
  have hset1 := setCell_eq Tile.E hsrow hscell
  have hsrowlen : srow.length = 6 := hb.2 srow (List.getElem?_mem (pyGet_norm hsrow).2.2)
  have hb1WF : WF (b.set (normIdx src.1 b.length).toNat
      (srow.set (normIdx src.2 srow.length).toNat Tile.E)) :=
    WF_set hb (by simp [hsrowlen])
  obtain ⟨u, hu⟩ := getCell_WF hb1WF hdr0 hdr6 hdc0 hdc6
  obtain ⟨drow, hdrow, hdcell⟩ := Option.bind_eq_some.mp hu
  unfold state_change
  rw [hv, hset1, Option.some_bind, setCell_eq Tile.B hdrow hdcell]
  exact ⟨_, rfl⟩

/-- Claim C5 counterexample: on White's turn the driver performs no
validity check and no fallback.  With a White agent returning the invalid
move ((0,0),(0,0)) on the initial board, the turn completes with the board
unchanged and the random-move counter NOT incremented — contradicting
"for either side ... substitutes a fallback move produced by
generate_rand_move [and] increments the random-move counter", and leaving
the turn without an applied valid move. -/
theorem C5_white_no_fallback_counterexample :
    is_valid_move (invert_board generate_init_state) (0, 0) (0, 0) = some false ∧
    play_turn alwaysExpired whiteFixed generate_init_state 0 1 =
      TurnResult.cont generate_init_state 0 2 ColorT.white := by
  decide

/-- Claim C5 (amended): on BLACK's turn, if the isolated agent call
produced no move (timeout or abnormal exit) or produced a move that
`is_valid_move` does not accept, the driver increments the random-move
counter, substitutes the fallback move of `generate_rand_move`, applies it
— it is valid — and the match continues.  (On White's turn there is no
validity check and no fallback, and a Black agent exception is fatal: see
the counterexample.) -/
theorem C5_black_fallback (b : Board) (hb : WF b) (rm mv : Nat) (hmv : mv % 2 = 0)
    (pA : Board → BlackOutcome) (pB : Board → Option Move) (fm : Move)
    (hfm : generate_rand_move b = some fm) (res : BlackOutcome) (hres : pA b = res)
    (hnomove : res = BlackOutcome.expired ∨ res = BlackOutcome.signaled ∨
      ∃ m, res = BlackOutcome.moved m ∧ ¬ is_valid_move b m.1 m.2 = some true) :
    is_valid_move b fm.1 fm.2 = some true ∧
    ∃ b2, state_change b fm.1 fm.2 = some b2 ∧
      play_turn pA pB b rm mv = TurnResult.cont b2 (rm + 1) (mv + 1) ColorT.black := by
  have hvalid := generate_rand_move_valid hb hfm
  obtain ⟨b2, hb2⟩ := state_change_total hb hvalid
  have hMN : ¬ is_valid_move b MOVE_NONE.1 MOVE_NONE.2 = some true := by
    intro hx
    have hneg := (is_valid_move_true_facts hx).2.1
    simp [MOVE_NONE] at hneg
  have happly : ∀ m : Move, ¬ is_valid_move b m.1 m.2 = some true →
      black_apply b rm mv m = TurnResult.cont b2 (rm + 1) (mv + 1) ColorT.black := by
    intro m hm
    unfold black_apply
    rw [if_neg hm]
    simp only [hfm, hb2]
  refine ⟨hvalid, b2, hb2, ?_⟩
  unfold play_turn
  rw [if_pos hmv, hres]
  rcases hnomove with h | h | ⟨m, hm, hmv2⟩
  · subst h
    exact happly MOVE_NONE hMN
  · subst h
    exact happly MOVE_NONE hMN
  · subst hm
    exact happly m hmv2

theorem C5_black_fallback_witness :
    WF generate_init_state ∧ (0 : Nat) % 2 = 0 ∧
    generate_rand_move generate_init_state = some ((1, 0), (2, 0)) ∧
    alwaysExpired generate_init_state = BlackOutcome.expired ∧
    (is_valid_move generate_init_state (1, 0) (2, 0) = some true ∧
     ∃ b2, state_change generate_init_state (1, 0) (2, 0) = some b2 ∧
       play_turn alwaysExpired whiteFixed generate_init_state 0 0 =
         TurnResult.cont b2 (0 + 1) (0 + 1) ColorT.black) :=
  ⟨by decide, by decide, by decide, rfl,
    C5_black_fallback generate_init_state (by decide) 0 0 (by decide) alwaysExpired
      whiteFixed ((1, 0), (2, 0)) (by decide) BlackOutcome.expired rfl (Or.inl rfl)⟩

/-- Claim C10: called on a board already game-over, `play` takes no turn:
`color` is still `None`, so the driver returns the boolean
`color == black` = `False` (a reported loss for Black, not a win and not a
failure string); the board comes back unchanged, and the result does not
depend on the agent parameters, so neither agent's `make_move` is
consulted. -/
theorem C10_play_on_finished_board (pA : Board → BlackOutcome)
    (pB : Board → Option Move) (board : Board) (fuel : Nat)
    (h : is_game_over board = some true) :
    play pA pB board fuel = some (PlayRes.result false, board) := by
  cases fuel with
  | zero => unfold play play_loop; rw [h]; rfl
  | succ n => unfold play play_loop; rw [h]; rfl

theorem C10_play_on_finished_board_witness :
    is_game_over finishedBoard = some true ∧
    play alwaysExpired whiteFixed finishedBoard 7 =
      some (PlayRes.result false, finishedBoard) :=
  ⟨by decide,
    C10_play_on_finished_board alwaysExpired whiteFixed finishedBoard 7 (by decide)⟩

end PS3
